import Mathlib

/-!
Shallow embedding of `src/cli.ts` of the `notificador` repository: a batch
CLI that polls the GitHub "latest release" endpoint for a list of
repositories, decides per repository whether a new release appeared since
the previously persisted state, sends an email notification for new
releases, and persists the updated state once at the end of the run.

External effects (the HTTP response for a fetch, the success or failure of
an email send, the wall-clock timestamp) are modelled as explicit inputs to
each reconciliation cycle; everything else is translated directly from the
TypeScript source.
-/

set_option autoImplicit false

namespace Notificador

/-- Release record parsed from the GitHub API response (`type Release` in
`cli.ts`). The numeric id is modelled as `Nat`; nullable/optional fields
as `Option`; the optional `author.login` is collapsed to an optional
string. -/
structure Release where
  id : Nat
  tag_name : String
  name : Option String
  html_url : String
  published_at : String
  body : Option String := none
  author : Option String := none
  deriving DecidableEq, Repr

/-- Per-repository persisted state (`type RepoState` in `cli.ts`); every
field is optional, matching the TypeScript optional fields. -/
structure RepoState where
  etag : Option String := none
  lastReleaseId : Option Nat := none
  lastTag : Option String := none
  lastPublishedAt : Option String := none
  lastCheckedAt : Option String := none
  deriving DecidableEq, Repr

/-- The persisted state document (`type StateFile`): a mapping from
repository key to `RepoState`, modelled as an association list (a JS
object holds its keys in insertion order). -/
structure StateFile where
  repos : List (String × RepoState)
  deriving DecidableEq, Repr

/-- First entry of an association list with the given key. -/
def lookupRepo (k : String) : List (String × RepoState) → Option RepoState
  | [] => none
  | (k', v) :: rest => if k' = k then some v else lookupRepo k rest

/-- Replacement of the entry with the given key, appending at the end when
the key is absent — the behavior of assigning to a JS object property. -/
def insertRepo (k : String) (v : RepoState) :
    List (String × RepoState) → List (String × RepoState)
  | [] => [(k, v)]
  | (k', v') :: rest =>
    if k' = k then (k, v) :: rest else (k', v') :: insertRepo k v rest

/-- Lookup of `state.repos[repo]`. -/
def getRepo (s : StateFile) (k : String) : Option RepoState :=
  lookupRepo k s.repos

/-- Assignment `state.repos[repo] = v`. -/
def setRepo (s : StateFile) (k : String) (v : RepoState) : StateFile :=
  ⟨insertRepo k v s.repos⟩

/-- Result of `fetchLatestRelease` when it returns normally
(`type FetchResult` in `cli.ts`). -/
inductive FetchResult where
  | not_modified : FetchResult
  | no_releases : FetchResult
  | ok (release : Release) (etag : Option String) : FetchResult
  deriving DecidableEq, Repr

/-- Classification of one repository's console line in the main loop:
`= no changes (304)`, `~ no published releases`, `= already tracked`,
`DRY-RUN would send email`, `✅ email sent`, or `❗ error`. -/
inductive Outcome where
  | unchanged : Outcome
  | noReleases : Outcome
  | alreadyTracked : Outcome
  | wouldNotify : Outcome
  | notified : Outcome
  | errored : Outcome
  deriving DecidableEq, Repr

/-- The `isNew` expression of the main loop:
`repoState.lastReleaseId !== release.id || repoState.lastTag !== release.tag_name || Boolean(args.values.force)`.
The JS strict inequality compares an optional stored value against the
present fetched value, so `undefined` on the left always differs. -/
def isNew (force : Bool) (repoState : RepoState) (release : Release) : Bool :=
  (repoState.lastReleaseId != some release.id) ||
  (repoState.lastTag != some release.tag_name) ||
  force

/-- One repository's reconciliation cycle: the body of the
`for (const repo of repos)` loop in `cli.ts`, lines 311–390, given the
prior `repoState`, the outcome of `fetchLatestRelease` (an `Except`,
since the fetch may throw), the outcome of `sendEmail` (consulted only on
the non-dry notification path), and the timestamp `now` produced by
`new Date().toISOString()`. Returns the state written back to
`state.repos[repo]`, the printed outcome, and the increment applied to
`changed`. -/
def reconcileOne (force dry : Bool) (now : String)
    (fetched : Except String FetchResult) (send : Except String Unit)
    (repoState : RepoState) : RepoState × Outcome × Nat :=
  match fetched with
  | .error _ =>
    ({ repoState with lastCheckedAt := some now }, .errored, 0)
  | .ok .not_modified =>
    ({ repoState with lastCheckedAt := some now }, .unchanged, 0)
  | .ok .no_releases =>
    ({ repoState with lastCheckedAt := some now }, .noReleases, 0)
  | .ok (.ok release etag) =>
    if isNew force repoState release then
      if dry then
        ({ etag := etag
           lastReleaseId := some release.id
           lastTag := some release.tag_name
           lastPublishedAt := some release.published_at
           lastCheckedAt := some now }, .wouldNotify, 1)
      else
        match send with
        | .error _ =>
          ({ repoState with lastCheckedAt := some now }, .errored, 0)
        | .ok _ =>
          ({ etag := etag
             lastReleaseId := some release.id
             lastTag := some release.tag_name
             lastPublishedAt := some release.published_at
             lastCheckedAt := some now }, .notified, 1)
    else
      ({ repoState with
           etag := etag.or repoState.etag
           lastCheckedAt := some now }, .alreadyTracked, 0)

/-- The external inputs consumed by one iteration of the main loop: the
repository key and, from the environment, the fetch outcome, the send
outcome and the current timestamp. -/
structure CycleInput where
  repo : String
  fetched : Except String FetchResult
  send : Except String Unit
  now : String

/-- The whole main loop: folds `reconcileOne` over the repository list
(each with its environment inputs), threading the in-memory state and
accumulating the `changed` counter and the printed outcomes in order. -/
def runAll (force dry : Bool) (entries : List CycleInput) (st : StateFile) :
    StateFile × Nat × List Outcome :=
  match entries with
  | [] => (st, 0, [])
  | e :: rest =>
    let repoState := (getRepo st e.repo).getD {}
    let step := reconcileOne force dry e.now e.fetched e.send repoState
    let tail := runAll force dry rest (setRepo st e.repo step.1)
    (tail.1, step.2.2 + tail.2.1, step.2.1 :: tail.2.2)

/-- Splitting a character list on a separator character, exactly as the JS
`String.prototype.split` with a one-character separator behaves: the
result always has one more element than there are separator occurrences,
with empty pieces kept. -/
def splitOnChar (c : Char) : List Char → List (List Char)
  | [] => [[]]
  | x :: xs =>
    let rest := splitOnChar c xs
    if x = c then [] :: rest
    else match rest with
      | [] => [[x]]
      | r :: rs => (x :: r) :: rs

/-- Segments of `input.split('/')` as strings. -/
def splitSlash (input : String) : List String :=
  (splitOnChar '/' input.data).map List.asString

/-- The `parseRepo` function of `cli.ts`: splits on `/`, takes the first
two segments (JS array destructuring ignores the rest; a missing second
element is `undefined`, which is falsy like the empty string), rejects
when either is missing or empty, and rebuilds the key from just those two
segments. Returns `none` where the source throws. -/
def parseRepo (input : String) : Option String :=
  match splitSlash input with
  | owner :: repo :: _ =>
    if owner = "" || repo = "" then none
    else some (owner ++ "/" ++ repo)
  | _ => none

/-- Construction of the processed repository list in `cli.ts` lines
298–302: the command-line `--repo` values (defaulting to the empty list)
with the config-file entries appended when a config file was given. -/
def buildRepoList (cliRepos : Option (List String))
    (configRepos : Option (List String)) : List String :=
  match configRepos with
  | none => cliRepos.getD []
  | some cfg => cliRepos.getD [] ++ cfg

/-- An HTTP response as `fetchLatestRelease` observes it: the status code,
the text body (read on the error path), the release record the platform's
JSON parsing produces from the body (read on the success path), and the
value of the `etag` response header, `none` when the header is absent. -/
structure HttpResponse where
  status : Nat
  body : String
  releaseJson : Release
  etagHeader : Option String

/-- The fetch API `Response.ok` property: status in the range 200–299. -/
def respOk (resp : HttpResponse) : Bool :=
  200 ≤ resp.status && resp.status ≤ 299

/-- URL built by `fetchLatestRelease` for a repository key. -/
def releaseUrl (repo : String) : String :=
  "https://api.github.com/repos/" ++ repo ++ "/releases/latest"

/-- Response classification of `fetchLatestRelease` (`cli.ts` lines
152–167): 304 returns `not_modified`, 404 returns `no_releases`, any
other non-ok status throws an error carrying the status and response
body, and an ok status returns the parsed release together with the
`etag` response header. -/
def fetchLatestRelease (repo : String) (resp : HttpResponse) :
    Except String FetchResult :=
  if resp.status = 304 then .ok .not_modified
  else if resp.status = 404 then .ok .no_releases
  else if !respOk resp then
    .error ("GitHub API " ++ toString resp.status ++ " for " ++
      releaseUrl repo ++ ": " ++ resp.body)
  else .ok (.ok resp.releaseJson resp.etagHeader)

/-- JSON documents, for the persisted state file. Numbers are restricted
to the naturals actually stored (release ids). -/
inductive Json where
  | null : Json
  | bool (b : Bool) : Json
  | num (n : Nat) : Json
  | str (s : String) : Json
  | arr (elems : List Json) : Json
  | obj (fields : List (String × Json)) : Json

/-- First field of a JSON object's field list with the given key. -/
def lookupField : List (String × Json) → String → Option Json
  | [], _ => none
  | (k', v) :: rest, k => if k' = k then some v else lookupField rest k

/-- Property lookup on a parsed JSON object: `undefined` (here `none`) on
a missing key or a non-object. -/
def Json.getField : Json → String → Option Json
  | .obj fields, k => lookupField fields k
  | _, _ => none

/-- String value of a JSON node, `none` for any other node. -/
def Json.asString : Json → Option String
  | .str s => some s
  | _ => none

/-- Numeric value of a JSON node, `none` for any other node. -/
def Json.asNat : Json → Option Nat
  | .num n => some n
  | _ => none

/-- Serialization of one `RepoState` as `JSON.stringify` produces it:
the properties in declaration order, with `undefined` (absent) fields
omitted from the output object. -/
def encodeRepoState (r : RepoState) : Json :=
  .obj ((r.etag.map fun e => ("etag", Json.str e)).toList ++
        (r.lastReleaseId.map fun i => ("lastReleaseId", Json.num i)).toList ++
        (r.lastTag.map fun t => ("lastTag", Json.str t)).toList ++
        (r.lastPublishedAt.map fun p => ("lastPublishedAt", Json.str p)).toList ++
        (r.lastCheckedAt.map fun c => ("lastCheckedAt", Json.str c)).toList)

/-- Reading one `RepoState` back from a parsed JSON object. The source
casts the parsed value (`JSON.parse(data) as StateFile`) without
validation, so each field is whatever property access yields: the stored
value when present, `undefined` (`none`) when absent. -/
def decodeRepoState (j : Json) : RepoState :=
  { etag := (j.getField "etag").bind Json.asString
    lastReleaseId := (j.getField "lastReleaseId").bind Json.asNat
    lastTag := (j.getField "lastTag").bind Json.asString
    lastPublishedAt := (j.getField "lastPublishedAt").bind Json.asString
    lastCheckedAt := (j.getField "lastCheckedAt").bind Json.asString }

/-- The state writer (`writeState` in `cli.ts`), modelled at the JSON
document level: `JSON.stringify(state, null, 2)` serializes the state as
one object with a single `repos` property holding one property per
repository key. -/
def writeState (s : StateFile) : Json :=
  .obj [("repos", .obj (s.repos.map fun kv => (kv.1, encodeRepoState kv.2)))]

/-- The state reader (`readState` in `cli.ts`), modelled at the JSON
document level: `none` stands for an unreadable or unparsable file, on
which the catch handler returns the empty state; otherwise the parsed
document's `repos` object is read back record by record. -/
def readState (doc : Option Json) : StateFile :=
  match doc with
  | none => ⟨[]⟩
  | some j =>
    match j.getField "repos" with
    | some (.obj fields) => ⟨fields.map fun kv => (kv.1, decodeRepoState kv.2)⟩
    | _ => ⟨[]⟩

/-! Helper lemmas shared by the claim theorems. -/

theorem lookupRepo_insertRepo_self (k : String) (v : RepoState)
    (l : List (String × RepoState)) :
    lookupRepo k (insertRepo k v l) = some v := by
  induction l with
  | nil => simp [insertRepo, lookupRepo]
  | cons hd tl ih =>
    by_cases h : hd.1 = k
    · simp [insertRepo, lookupRepo, h]
    · simpa [insertRepo, lookupRepo, h] using ih

theorem getRepo_setRepo_self (s : StateFile) (k : String) (v : RepoState) :
    getRepo (setRepo s k v) k = some v :=
  lookupRepo_insertRepo_self k v s.repos

theorem lookupRepo_insertRepo_other (k k' : String) (v : RepoState)
    (l : List (String × RepoState)) (h : k' ≠ k) :
    lookupRepo k (insertRepo k' v l) = lookupRepo k l := by
  induction l with
  | nil => simp [insertRepo, lookupRepo, h]
  | cons hd tl ih =>
    obtain ⟨k₀, v₀⟩ := hd
    by_cases h2 : k₀ = k'
    · subst h2
      simp [insertRepo, lookupRepo, h]
    · simp [insertRepo, lookupRepo, h2, ih]

theorem getRepo_setRepo_other (s : StateFile) (k k' : String) (v : RepoState)
    (h : k' ≠ k) :
    getRepo (setRepo s k' v) k = getRepo s k :=
  lookupRepo_insertRepo_other k k' v s.repos h

theorem runAll_outcomes_length (force dry : Bool) (es : List CycleInput) :
    ∀ st : StateFile, (runAll force dry es st).2.2.length = es.length := by
  induction es with
  | nil => intro st; rfl
  | cons e rest ih => intro st; simp [runAll, ih]

theorem runAll_append (force dry : Bool) (es₁ es₂ : List CycleInput) :
    ∀ st : StateFile,
    runAll force dry (es₁ ++ es₂) st =
      ((runAll force dry es₂ (runAll force dry es₁ st).1).1,
       (runAll force dry es₁ st).2.1 +
         (runAll force dry es₂ (runAll force dry es₁ st).1).2.1,
       (runAll force dry es₁ st).2.2 ++
         (runAll force dry es₂ (runAll force dry es₁ st).1).2.2) := by
  induction es₁ with
  | nil => intro st; simp [runAll]
  | cons e rest ih => intro st; simp [runAll, ih, Nat.add_assoc]

theorem runAll_getRepo_frame (force dry : Bool) (es : List CycleInput)
    (k : String) :
    ∀ st : StateFile, (∀ e ∈ es, e.repo ≠ k) →
      getRepo (runAll force dry es st).1 k = getRepo st k := by
  induction es with
  | nil => intro st _; rfl
  | cons e rest ih =>
    intro st h
    simp only [runAll]
    rw [ih _ fun e' hm => h e' (List.mem_cons_of_mem _ hm)]
    exact getRepo_setRepo_other st k e.repo _ (h e (List.mem_cons_self _ _))

theorem isNew_iff (force : Bool) (st : RepoState) (rel : Release) :
    isNew force st rel = true ↔
      st.lastReleaseId ≠ some rel.id ∨ st.lastTag ≠ some rel.tag_name ∨
        force = true := by
  simp [isNew, bne_iff_ne, or_assoc]

/-- C1: on a `Found` fetch the cycle takes a branch other than
`already tracked` exactly when the fetched id differs from the stored
`lastReleaseId`, or the fetched tag differs from the stored `lastTag`, or
the force flag is set; with no prior state both comparisons differ, and a
bumped id under an identical tag is judged new. -/
theorem found_isNew_decision (force dry : Bool) (now : String) (rel : Release)
    (etag : Option String) (send : Except String Unit) (st : RepoState) :
    ((reconcileOne force dry now (.ok (.ok rel etag)) send st).2.1 ≠
        Outcome.alreadyTracked ↔
      st.lastReleaseId ≠ some rel.id ∨ st.lastTag ≠ some rel.tag_name ∨
        force = true)
    ∧ isNew force {} rel = true
    ∧ (st.lastTag = some rel.tag_name → st.lastReleaseId ≠ some rel.id →
        isNew force st rel = true) := by
  refine ⟨?_, rfl, ?_⟩
  · rw [← isNew_iff force st rel]
    by_cases h : isNew force st rel
    · cases dry with
      | true => simp [reconcileOne, h]
      | false => cases send <;> simp [reconcileOne, h]
    · simp only [Bool.not_eq_true] at h
      simp [reconcileOne, h]
  · intro htag hid
    simp [isNew, bne_iff_ne, hid]

/-- Release with a bumped id under the same tag as `relSample`. -/
def relBumped : Release :=
  { id := 11, tag_name := "v1.0.0", name := none, html_url := "u",
    published_at := "p2" }

/-- C1 witness: the theorem applied at a stored state tracking release 10
under tag `v1.0.0` and a fetched release with id 11 under the same tag. -/
theorem found_isNew_decision_witness :
    (reconcileOne false false "t" (.ok (.ok relBumped none)) (.ok ())
        { lastReleaseId := some 10, lastTag := some "v1.0.0" }).2.1 ≠
      Outcome.alreadyTracked
    ∧ isNew false { lastReleaseId := some 10, lastTag := some "v1.0.0" }
        relBumped = true :=
  ⟨(found_isNew_decision false false "t" relBumped none (.ok ())
      { lastReleaseId := some 10, lastTag := some "v1.0.0" }).1.mpr
      (Or.inl (by decide)),
   (found_isNew_decision false false "t" relBumped none (.ok ())
      { lastReleaseId := some 10, lastTag := some "v1.0.0" }).2.2
      (by decide) (by decide)⟩

/-- C2: the three notified fields only ever change together with the full
record replacement of the notification branch; and when a release is
judged new, the state written under a dry run and the state written after
a successful real send are the same full record built from the fetched
release. -/
theorem notified_triple_atomic_replacement (force : Bool) (now : String)
    (rel : Release) (etag : Option String) (st : RepoState) :
    (∀ (dry : Bool) (send : Except String Unit)
        (fetched : Except String FetchResult),
      ((reconcileOne force dry now fetched send st).1.lastReleaseId =
          st.lastReleaseId ∧
        (reconcileOne force dry now fetched send st).1.lastTag = st.lastTag ∧
        (reconcileOne force dry now fetched send st).1.lastPublishedAt =
          st.lastPublishedAt) ∨
      (∃ (r : Release) (e : Option String),
        fetched = Except.ok (FetchResult.ok r e) ∧
        (reconcileOne force dry now fetched send st).1 =
          { etag := e, lastReleaseId := some r.id, lastTag := some r.tag_name,
            lastPublishedAt := some r.published_at,
            lastCheckedAt := some now }))
    ∧ (isNew force st rel = true →
        (reconcileOne force true now (.ok (.ok rel etag)) (Except.ok ()) st).1 =
          { etag := etag, lastReleaseId := some rel.id,
            lastTag := some rel.tag_name,
            lastPublishedAt := some rel.published_at,
            lastCheckedAt := some now }
        ∧ (reconcileOne force false now (.ok (.ok rel etag))
              (Except.ok ()) st).1 =
          (reconcileOne force true now (.ok (.ok rel etag))
              (Except.ok ()) st).1) := by
  constructor
  · intro dry send fetched
    match fetched with
    | .error msg => left; simp [reconcileOne]
    | .ok .not_modified => left; simp [reconcileOne]
    | .ok .no_releases => left; simp [reconcileOne]
    | .ok (.ok r e) =>
      by_cases h : isNew force st r
      · cases dry with
        | true => exact Or.inr ⟨r, e, rfl, by simp [reconcileOne, h]⟩
        | false =>
          cases send with
          | error msg => left; simp [reconcileOne, h]
          | ok u => exact Or.inr ⟨r, e, rfl, by simp [reconcileOne, h]⟩
      · simp only [Bool.not_eq_true] at h
        left; simp [reconcileOne, h]
  · intro h
    exact ⟨by simp [reconcileOne, h], by simp [reconcileOne, h]⟩

/-- C2 witness: the theorem applied at a concrete new release. -/
theorem notified_triple_atomic_replacement_witness :
    (reconcileOne false true "t1"
        (.ok (.ok { id := 10, tag_name := "v1.0.0", name := none,
                    html_url := "u", published_at := "p" } (some "e")))
        (Except.ok ()) {}).1 =
      { etag := some "e", lastReleaseId := some 10, lastTag := some "v1.0.0",
        lastPublishedAt := some "p", lastCheckedAt := some "t1" } :=
  ((notified_triple_atomic_replacement false "t1"
      { id := 10, tag_name := "v1.0.0", name := none, html_url := "u",
        published_at := "p" } (some "e") {}).2 (by decide)).1

/-- C3: a cycle that fails — the fetch throws, or the send throws on the
notification path — writes back the prior state with only the
checked-timestamp replaced, reports the `errored` outcome instead of
propagating the error, and leaves the `changed` counter alone. -/
theorem failed_cycle_updates_only_checkedAt (force dry : Bool) (now : String)
    (st : RepoState) :
    (∀ (msg : String) (send : Except String Unit),
      reconcileOne force dry now (Except.error msg) send st =
        ({ st with lastCheckedAt := some now }, Outcome.errored, 0))
    ∧ (∀ (rel : Release) (etag : Option String) (msg : String),
        isNew force st rel = true →
        reconcileOne force false now (.ok (.ok rel etag))
            (Except.error msg) st =
          ({ st with lastCheckedAt := some now }, Outcome.errored, 0)) := by
  refine ⟨fun msg send => rfl, fun rel etag msg h => ?_⟩
  simp [reconcileOne, h]

/-- C3 witness: the theorem applied at a concrete fetch error and a
concrete send error. -/
theorem failed_cycle_updates_only_checkedAt_witness :
    reconcileOne false false "t2" (Except.error "GitHub API 500")
        (Except.ok ()) {} =
      ({ lastCheckedAt := some "t2" }, Outcome.errored, 0)
    ∧ reconcileOne false false "t2"
        (.ok (.ok { id := 3, tag_name := "v3", name := none, html_url := "u",
                    published_at := "p" } none))
        (Except.error "Resend error: boom") {} =
      ({ lastCheckedAt := some "t2" }, Outcome.errored, 0) :=
  ⟨(failed_cycle_updates_only_checkedAt false false "t2" {}).1 "GitHub API 500"
      (Except.ok ()),
   (failed_cycle_updates_only_checkedAt false false "t2" {}).2
      { id := 3, tag_name := "v3", name := none, html_url := "u",
        published_at := "p" } none "Resend error: boom" (by decide)⟩

/-- C5: on a 304 `not modified` or a 404 `no releases` fetch result the
cycle returns the prior state with only the checked-timestamp replaced,
never consults the send outcome, reports the corresponding quiet outcome,
and leaves the `changed` counter alone. -/
theorem unchanged_noReleases_checkedAt_only (force dry : Bool) (now : String)
    (send : Except String Unit) (st : RepoState) :
    reconcileOne force dry now (.ok .not_modified) send st =
      ({ st with lastCheckedAt := some now }, Outcome.unchanged, 0)
    ∧ reconcileOne force dry now (.ok .no_releases) send st =
      ({ st with lastCheckedAt := some now }, Outcome.noReleases, 0) :=
  ⟨rfl, rfl⟩

/-- Sample release record used by concrete scenarios. -/
def relSample : Release :=
  { id := 10, tag_name := "v1.0.0", name := none, html_url := "u",
    published_at := "p" }

/-- Release published by the first repository of the isolation batch. -/
def relFirst : Release :=
  { id := 1, tag_name := "v1", name := none, html_url := "ua",
    published_at := "pa" }

/-- Release published by the third repository of the isolation batch. -/
def relThird : Release :=
  { id := 7, tag_name := "v7", name := none, html_url := "uc",
    published_at := "pc" }

/-- Three-repository batch in which the middle repository's fetch throws
while the outer two return fresh releases. -/
def isolationEntries : List CycleInput :=
  [ ⟨"octo/a", .ok (.ok relFirst (some "ea")), .ok (), "t1"⟩,
    ⟨"octo/b", .error "GitHub API 500 for url: boom", .ok (), "t2"⟩,
    ⟨"octo/c", .ok (.ok relThird none), .ok (), "t3"⟩ ]

/-- Expected persisted state after the isolation batch: the outer two
repositories carry their full notified record, the erroring middle one
only its fresh checked-timestamp, and all three checked-timestamps are
updated. -/
def isolationFinalState : StateFile :=
  ⟨[("octo/a",
     { etag := some "ea", lastReleaseId := some 1, lastTag := some "v1",
       lastPublishedAt := some "pa", lastCheckedAt := some "t1" }),
    ("octo/b", { lastCheckedAt := some "t2" }),
    ("octo/c",
     { etag := none, lastReleaseId := some 7, lastTag := some "v7",
       lastPublishedAt := some "pc", lastCheckedAt := some "t3" })]⟩

/-- C4: the main loop produces one outcome per input entry no matter which
entries error, and on the concrete three-repository batch whose second
repository throws, the first and third are still notified and all three
persisted records carry their fresh checked-timestamp. -/
theorem error_isolation_across_repositories :
    (∀ (force dry : Bool) (entries : List CycleInput) (st : StateFile),
      (runAll force dry entries st).2.2.length = entries.length)
    ∧ runAll false false isolationEntries ⟨[]⟩ =
      (isolationFinalState, 2,
        [Outcome.notified, Outcome.errored, Outcome.notified]) := by
  constructor
  · exact fun force dry entries st => runAll_outcomes_length force dry entries st
  · decide

/-- C6: classification of every HTTP response by `fetchLatestRelease`:
304 yields `not_modified`, 404 yields `no_releases`, any other non-ok
status throws an error message carrying the status and the response body,
and an ok (200–299) status yields the parsed release together with the
`etag` header value, absent exactly when the header was absent. -/
theorem fetch_status_classification (repo : String) (resp : HttpResponse) :
    (resp.status = 304 → fetchLatestRelease repo resp = .ok .not_modified)
    ∧ (resp.status = 404 → fetchLatestRelease repo resp = .ok .no_releases)
    ∧ (resp.status ≠ 304 → resp.status ≠ 404 →
        ¬(200 ≤ resp.status ∧ resp.status ≤ 299) →
        fetchLatestRelease repo resp =
          .error ("GitHub API " ++ toString resp.status ++ " for " ++
            releaseUrl repo ++ ": " ++ resp.body))
    ∧ (200 ≤ resp.status → resp.status ≤ 299 →
        fetchLatestRelease repo resp =
          .ok (.ok resp.releaseJson resp.etagHeader)) := by
  refine ⟨?_, ?_, ?_, ?_⟩
  · intro h; simp [fetchLatestRelease, h]
  · intro h; simp [fetchLatestRelease, h]
  · intro h1 h2 h3
    have hOk : respOk resp = false := by
      rw [not_and_or] at h3
      rcases h3 with h | h <;> simp [respOk, h]
    simp [fetchLatestRelease, h1, h2, hOk]
  · intro hlo hhi
    have h1 : resp.status ≠ 304 := by omega
    have h2 : resp.status ≠ 404 := by omega
    have hOk : respOk resp = true := by simp [respOk, hlo, hhi]
    simp [fetchLatestRelease, h1, h2, hOk]

/-- C6 witness: the theorem applied at concrete 304, 404, 500 and 200
responses. -/
theorem fetch_status_classification_witness :
    fetchLatestRelease "octo/demo" ⟨304, "", relSample, none⟩ =
      .ok .not_modified
    ∧ fetchLatestRelease "octo/demo" ⟨404, "nf", relSample, none⟩ =
      .ok .no_releases
    ∧ fetchLatestRelease "octo/demo" ⟨500, "boom", relSample, none⟩ =
      .error ("GitHub API " ++ toString 500 ++ " for " ++
        releaseUrl "octo/demo" ++ ": " ++ "boom")
    ∧ fetchLatestRelease "octo/demo" ⟨200, "", relSample, some "e"⟩ =
      .ok (.ok relSample (some "e")) :=
  ⟨(fetch_status_classification "octo/demo" ⟨304, "", relSample, none⟩).1 rfl,
   (fetch_status_classification "octo/demo" ⟨404, "nf", relSample, none⟩).2.1
     rfl,
   (fetch_status_classification "octo/demo"
      ⟨500, "boom", relSample, none⟩).2.2.1 (by decide) (by decide) (by decide),
   (fetch_status_classification "octo/demo"
      ⟨200, "", relSample, some "e"⟩).2.2.2 (by decide) (by decide)⟩

/-- C9: in the already-tracked branch the stored validator is kept when
the fetch supplied none (the fetched validator only overrides when
present), while in the notification branch — dry or after a successful
send — the stored validator is always replaced by exactly the fetched
one, so a fetch without a validator erases the stored one. -/
theorem etag_update_asymmetry (force dry : Bool) (now : String)
    (rel : Release) (send : Except String Unit) (st : RepoState) :
    (isNew force st rel = false →
      (∀ e? : Option String,
        (reconcileOne force dry now (.ok (.ok rel e?)) send st).1.etag =
          Option.or e? st.etag)
      ∧ (reconcileOne force dry now (.ok (.ok rel none)) send st).1.etag =
          st.etag)
    ∧ (isNew force st rel = true →
      ∀ e? : Option String,
        (reconcileOne force true now (.ok (.ok rel e?)) send st).1.etag = e?
        ∧ (reconcileOne force false now (.ok (.ok rel e?))
            (Except.ok ()) st).1.etag = e?) := by
  constructor
  · intro h
    exact ⟨fun e? => by simp [reconcileOne, h], by simp [reconcileOne, h]⟩
  · intro h e?
    exact ⟨by simp [reconcileOne, h], by simp [reconcileOne, h]⟩

/-- C9 witness: the theorem applied at a tracked release fetched without a
validator (stored validator kept) and at a new release fetched without a
validator (stored validator erased). -/
theorem etag_update_asymmetry_witness :
    (reconcileOne false false "t" (.ok (.ok relSample none)) (.ok ())
        { etag := some "old", lastReleaseId := some 10,
          lastTag := some "v1.0.0" }).1.etag = some "old"
    ∧ (reconcileOne false true "t" (.ok (.ok relSample none)) (.ok ())
        { etag := some "old" }).1.etag = none :=
  ⟨((etag_update_asymmetry false false "t" relSample (.ok ())
      { etag := some "old", lastReleaseId := some 10,
        lastTag := some "v1.0.0" }).1 (by decide)).2,
   (((etag_update_asymmetry false true "t" relSample (.ok ())
      { etag := some "old" }).2 (by decide)) none).1⟩

theorem decodeRepoState_encodeRepoState (r : RepoState) :
    decodeRepoState (encodeRepoState r) = r := by
  obtain ⟨e, i, t, p, c⟩ := r
  cases e <;> cases i <;> cases t <;> cases p <;> cases c <;>
    simp [encodeRepoState, decodeRepoState, Json.getField, lookupField,
      Json.asString, Json.asNat]

/-- C7: serializing a state collection with unique repository keys and
reading the written document back yields field-for-field identical
records for every repository. -/
theorem state_write_read_roundtrip (s : StateFile)
    (h : (s.repos.map Prod.fst).Nodup) :
    readState (some (writeState s)) = s := by
  obtain ⟨l⟩ := s
  simp [readState, writeState, Json.getField, lookupField,
    decodeRepoState_encodeRepoState]
  clear h
  induction l with
  | nil => rfl
  | cons hd tl ih => simp [decodeRepoState_encodeRepoState, ih]

/-- C7 witness: the theorem applied at a concrete two-repository state. -/
theorem state_write_read_roundtrip_witness :
    ((StateFile.mk
        [("octo/demo",
          { etag := some "e", lastReleaseId := some 10,
            lastTag := some "v1.0.0", lastPublishedAt := some "p",
            lastCheckedAt := some "t" }),
         ("owner/name", { lastCheckedAt := some "t0" })]).repos.map
      Prod.fst).Nodup
    ∧ readState (some (writeState (StateFile.mk
        [("octo/demo",
          { etag := some "e", lastReleaseId := some 10,
            lastTag := some "v1.0.0", lastPublishedAt := some "p",
            lastCheckedAt := some "t" }),
         ("owner/name", { lastCheckedAt := some "t0" })]))) =
      StateFile.mk
        [("octo/demo",
          { etag := some "e", lastReleaseId := some 10,
            lastTag := some "v1.0.0", lastPublishedAt := some "p",
            lastCheckedAt := some "t" }),
         ("owner/name", { lastCheckedAt := some "t0" })] :=
  ⟨by decide, state_write_read_roundtrip _ (by decide)⟩

/-- C8: the processed repository list is the command-line entries followed
by the config-file entries with no de-duplication, and when the same key
is handled by two consecutive entries, both are processed (two outcomes)
with the second cycle reading the record the first wrote, and the
persisted record for the key is the second cycle's result. -/
theorem repoList_concatenation_second_pass_wins :
    (∀ cli cfg : List String,
      buildRepoList (some cli) (some cfg) = cli ++ cfg)
    ∧ (∀ (force dry : Bool) (st : StateFile) (es₁ : List CycleInput)
        (e : CycleInput) (es₂ : List CycleInput),
        (∀ e' ∈ es₂, e'.repo ≠ e.repo) →
        (runAll force dry (es₁ ++ e :: es₂) st).2.2.length =
          es₁.length + 1 + es₂.length
        ∧ getRepo (runAll force dry (es₁ ++ e :: es₂) st).1 e.repo =
          some (reconcileOne force dry e.now e.fetched e.send
            ((getRepo (runAll force dry es₁ st).1 e.repo).getD {})).1) := by
  refine ⟨fun cli cfg => rfl, ?_⟩
  intro force dry st es₁ e es₂ h
  constructor
  · simp only [runAll_outcomes_length, List.length_append, List.length_cons]
    omega
  · rw [runAll_append]
    simp only [runAll]
    rw [runAll_getRepo_frame force dry es₂ e.repo _ h, getRepo_setRepo_self]

/-- C8 witness: the theorem applied to a duplicated key whose first pass
notifies a release and whose second pass gets a 304: the persisted record
is the first pass's record with only the checked-timestamp advanced by
the second pass. -/
theorem repoList_concatenation_second_pass_wins_witness :
    buildRepoList (some ["a/b"]) (some ["c/d", "a/b"]) =
      ["a/b", "c/d", "a/b"]
    ∧ getRepo (runAll false false
        [⟨"octo/demo", .ok (.ok relSample (some "e1")), .ok (), "t1"⟩,
         ⟨"octo/demo", .ok .not_modified, .ok (), "t2"⟩] ⟨[]⟩).1
        "octo/demo" =
      some { etag := some "e1", lastReleaseId := some 10,
             lastTag := some "v1.0.0", lastPublishedAt := some "p",
             lastCheckedAt := some "t2" } := by
  refine ⟨repoList_concatenation_second_pass_wins.1 ["a/b"] ["c/d", "a/b"], ?_⟩
  have h := (repoList_concatenation_second_pass_wins.2 false false ⟨[]⟩
    [⟨"octo/demo", .ok (.ok relSample (some "e1")), .ok (), "t1"⟩]
    ⟨"octo/demo", .ok .not_modified, .ok (), "t2"⟩ [] (by simp)).2
  exact h.trans (by decide)

/-- C10: `parseRepo` rejects an input exactly when the first segment of
the `/`-split is empty or the second is missing or empty; and on any
input whose split has non-empty first and second segments — in
particular one with two or more `/` characters — it returns just those
two segments joined by `/`, discarding the rest. -/
theorem parseRepo_segments_spec (input : String) :
    (parseRepo input = none ↔
      (splitSlash input)[0]? = some "" ∨ (splitSlash input)[1]? = none ∨
        (splitSlash input)[1]? = some "")
    ∧ (∀ (a b : String) (rest : List String),
        splitSlash input = a :: b :: rest → a ≠ "" → b ≠ "" →
        parseRepo input = some (a ++ "/" ++ b)) := by
  constructor
  · match hs : splitSlash input with
    | [] => simp [parseRepo, hs]
    | [a] => simp [parseRepo, hs]
    | a :: b :: rest =>
      by_cases ha : a = "" <;> by_cases hb : b = "" <;>
        simp [parseRepo, hs, ha, hb]
  · intro a b rest hs ha hb
    simp [parseRepo, hs, ha, hb]

/-- C10 witness: the theorem applied at `a/b/c` (accepted, third segment
discarded) and at `a//c` (rejected: empty middle segment). -/
theorem parseRepo_segments_spec_witness :
    parseRepo "a/b/c" = some "a/b" ∧ parseRepo "a//c" = none :=
  ⟨(parseRepo_segments_spec "a/b/c").2 "a" "b" ["c"] (by decide) (by decide)
     (by decide),
   (parseRepo_segments_spec "a//c").1.mpr (by decide)⟩

end Notificador
